import Mathlib

/-!
Verification development for the httpUi browser AJAX convenience library.

The JavaScript source is shallowly embedded below.  Host primitives that the
library calls but does not define (the DOM, `JSON.parse`, `FormData`, the two
network transports) are modelled abstractly: `JSON.parse` as a parameter of
type `String → Option JVal`, the DOM context elements as a small `Element`
structure, and each transport's possible outcomes as an explicit datatype.
The library's own code (the `queryUi` constructor, `serializeForm`,
`prepareQuery`, `request`, the transport adapters, `requestFail`,
`displayAlert`, `escapeHtml`, the shorthand methods) is translated
line by line from `src/unnamed/part_000`.
-/

namespace HttpUi

/-- Model of a JavaScript (JSON-like) value, used for parsed bodies and
structured payloads.  `undefined` is represented by `Option.none` at use
sites. -/
inductive JVal where
  | null
  | bool (b : Bool)
  | num (n : Int)
  | str (s : String)
  | arr (elems : List JVal)
  | obj (fields : List (String × JVal))

/-- Truthiness of a JavaScript value (`if (v)`).  All objects and arrays are
truthy; `null`, `false`, `0` and the empty string are falsy. -/
def jsTruthy : JVal → Bool
  | .null => false
  | .bool b => b
  | .num n => !(n == 0)
  | .str s => !(s == "")
  | .arr _ => true
  | .obj _ => true

/-- Whether `typeof v === 'object'` holds for a JavaScript value: true for
objects, arrays and `null`. -/
def typeofObjectJ : JVal → Bool
  | .null => true
  | .arr _ => true
  | .obj _ => true
  | _ => false

/-- Whether `typeof v === 'object'` holds, where `none` models `undefined`
(whose typeof is `'undefined'`). -/
def typeofObjectOpt : Option JVal → Bool
  | none => false
  | some v => typeofObjectJ v

/-- First-match lookup in an object's field list (objects built by this
model never carry duplicate keys). -/
def jassocGet : List (String × JVal) → String → Option JVal
  | [], _ => none
  | (k, v) :: rest, key => if k == key then some v else jassocGet rest key

/-- Property access `v?.message`: a field lookup on objects, `undefined` on
every other kind of value. -/
def msgOf : JVal → Option JVal
  | .obj fs => jassocGet fs "message"
  | _ => none

/-! String helpers mirroring the JavaScript string primitives the library
uses (`indexOf`, `endsWith`, number-to-string conversion in template
literals).  They are written over `List Char` so that they reduce inside
`decide`. -/

/-- Whether the second list is a prefix of the first. -/
def startsWithL : List Char → List Char → Bool
  | _, [] => true
  | [], _ :: _ => false
  | c :: cs, p :: ps => c == p && startsWithL cs ps

/-- Position of the first occurrence of `pat` in the remaining haystack,
counting from `i`. -/
def firstIdxAux : List Char → List Char → Nat → Option Nat
  | [], pat, i => if pat.isEmpty then some i else none
  | c :: rest, pat, i =>
    if startsWithL (c :: rest) pat then some i else firstIdxAux rest pat (i + 1)

/-- Model of `String.prototype.indexOf`: index of the first occurrence, or
`-1` when the pattern does not occur. -/
def strIndexOf (s pat : String) : Int :=
  match firstIdxAux s.data pat.data 0 with
  | some i => (i : Int)
  | none => -1

/-- Model of `String.prototype.endsWith`. -/
def strEndsWith (s pat : String) : Bool :=
  startsWithL s.data.reverse pat.data.reverse

/-- Decimal digits of a natural number, most significant first, computed with
explicit fuel so that the definition is structurally recursive. -/
def digitsFuel : Nat → Nat → List Nat
  | 0, _ => []
  | fuel + 1, n => if n < 10 then [n] else digitsFuel fuel (n / 10) ++ [n % 10]

/-- Decimal digits of `n`, most significant first. -/
def natDecimal (n : Nat) : List Nat := digitsFuel (n + 1) n

/-- Character for a single decimal digit. -/
def digitChar10 (d : Nat) : Char := Char.ofNat (48 + d)

/-- Decimal rendering of a natural number, as produced by a JavaScript
template literal `${j}`. -/
def natToString (n : Nat) : String := ⟨(natDecimal n).map digitChar10⟩

/-- Key generated for the j-th selected option of a multi-select input:
the template literal `${sname}[${j}]` in `serializeForm`. -/
def selKey (sname : String) (j : Nat) : String :=
  sname ++ "[" ++ natToString j ++ "]"

/-! Model of `JSON.stringify` for the payload-serialization step.  Only the
overall shape matters for the claims; the rendering is a straightforward
recursive printer. -/

/-- Escape a string for inclusion in a JSON text. -/
def jsonEscape (s : String) : String :=
  ⟨s.data.foldr
    (fun c acc =>
      (if c == '"' then ['\\', '"'] else if c == '\\' then ['\\', '\\'] else [c]) ++ acc)
    []⟩

mutual

/-- Model of `JSON.stringify` on a JavaScript value. -/
def jsonStringify : JVal → String
  | .null => "null"
  | .bool true => "true"
  | .bool false => "false"
  | .num n => toString n
  | .str s => "\"" ++ jsonEscape s ++ "\""
  | .arr xs => "[" ++ jsonStringifyArr xs ++ "]"
  | .obj fs => "\x7b" ++ jsonStringifyObj fs ++ "\x7d"

/-- Comma-separated rendering of an array's elements. -/
def jsonStringifyArr : List JVal → String
  | [] => ""
  | [x] => jsonStringify x
  | x :: y :: rest => jsonStringify x ++ "," ++ jsonStringifyArr (y :: rest)

/-- Comma-separated rendering of an object's fields. -/
def jsonStringifyObj : List (String × JVal) → String
  | [] => ""
  | [(k, v)] => "\"" ++ jsonEscape k ++ "\":" ++ jsonStringify v
  | (k, v) :: f :: rest =>
    "\"" ++ jsonEscape k ++ "\":" ++ jsonStringify v ++ "," ++ jsonStringifyObj (f :: rest)

end

/-! Header mappings.  Header values may be `undefined` (the CSRF token read
from a missing meta tag), so a value is an `Option String`. -/

/-- Header mapping of a request: key/value pairs with JavaScript object
semantics. -/
abbrev Headers := List (String × Option String)

/-- Lookup of a header key.  The outer `Option` is presence of the key, the
inner one the (possibly `undefined`) value. -/
def hGet : Headers → String → Option (Option String)
  | [], _ => none
  | (k, v) :: rest, key => if k == key then some v else hGet rest key

/-- Assignment `headers[key] = v`: update in place when the key exists,
append otherwise. -/
def hSet : Headers → String → Option String → Headers
  | [], key, v => [(key, v)]
  | (k, w) :: rest, key, v =>
    if k == key then (k, v) :: rest else (k, w) :: hSet rest key v

/-! Model of the DOM as far as the library reads it. -/

/-- One option of a select element, with its value and selected state. -/
structure SelOption where
  value : String
  selected : Bool
deriving DecidableEq

/-- One form-like descendant (`input`, `select` or `textarea`) as read by
`serializeForm`. -/
structure Input where
  tagName : String
  type : String
  name : String
  value : String
  checked : Bool
  multiple : Bool
  options : List SelOption
deriving DecidableEq

/-- A DOM element: its node name and the form-like descendants returned by
`querySelectorAll('input, select, textarea')`. -/
structure Element where
  nodeName : String
  inputs : List Input
deriving DecidableEq

/-- A context value supplied by the caller: either a concrete HTML element
or some other object (for which `instanceof HTMLElement` is false). -/
inductive Ctx where
  | elem (e : Element)
  | nonElem
deriving DecidableEq

/-- Ambient browser state the library reads: the CSRF meta tag content
(`undefined` when the tag is missing) and `document.body`. -/
structure Env where
  csrf : Option String
  body : Element

/-! Serialization of form fields (`serializeForm`). -/

/-- Lookup `data[name]` in the object being built by `serializeForm`. -/
def assocGetS : List (String × String) → String → Option String
  | [], _ => none
  | (k, v) :: rest, key => if k == key then some v else assocGetS rest key

/-- Assignment `data[name] = v`. -/
def assocSetS : List (String × String) → String → String → List (String × String)
  | [], key, v => [(key, v)]
  | (k, w) :: rest, key, v =>
    if k == key then (k, v) :: rest else (k, w) :: assocSetS rest key v

/-- Truthiness test `!data[name]` on a possibly-absent string: true exactly
for a missing key or the empty string. -/
def falsyOpt : Option String → Bool
  | none => true
  | some s => s == ""

/-- Values of the checked options of a select, in document order
(`querySelectorAll("option:checked")`). -/
def checkedValues (opts : List SelOption) : List String :=
  (opts.filter (fun o => o.selected)).map (fun o => o.value)

/-- Indexed assignment loop of the multi-select branch of `serializeForm`:
`data[`${sname}[${j}]`] = option.value` for each checked option. -/
def setIndexed (d : List (String × String)) (sname : String) :
    List String → Nat → List (String × String)
  | [], _ => d
  | v :: rest, start => setIndexed (assocSetS d (selKey sname start) v) sname rest (start + 1)

/-- Body of the `inputs.forEach` callback in `serializeForm`: how one input
contributes to the accumulated data object. -/
def serInput (d : List (String × String)) (i : Input) : List (String × String) :=
  if i.type == "checkbox" then
    assocSetS d i.name (if i.checked then i.value else "")
  else if i.type == "radio" then
    let d1 := if falsyOpt (assocGetS d i.name) then assocSetS d i.name "" else d
    if i.checked then assocSetS d1 i.name i.value else d1
  else if i.tagName == "SELECT" && i.multiple && strEndsWith i.name "[]" then
    setIndexed d (i.name.dropRight 2) (checkedValues i.options) 0
  else
    assocSetS d i.name i.value

/-- The data object accumulated by `serializeForm` over a non-form element's
inputs. -/
def serializeFields (inputs : List Input) : List (String × String) :=
  inputs.foldl serInput []

/-- A request payload: either a JavaScript value or a binary `FormData`
payload built from a form element. -/
inductive Payload where
  | jval (v : JVal)
  | formData (el : Element)

/-- Model of `HttpUi.serializeForm`: a `FORM` element yields
`new FormData(form)`; any other element yields the plain object built from
its form-like descendants. -/
def serializeForm (el : Element) : Payload :=
  if el.nodeName == "FORM" then
    .formData el
  else
    .jval (.obj ((serializeFields el.inputs).map (fun kv => (kv.1, JVal.str kv.2))))

/-- The failure/response object handed around by the transports
(a jQuery `jqXHR`, a fetch `Response`, a thrown `{data, status, statusText}`
object, or a caught exception).  Fields a given object lacks are `none`. -/
structure XHR where
  status : Option Int
  statusText : Option String
  responseText : Option String
  data : Option JVal

/-- Caller-supplied parameter object of a request.  A field that is absent
from the object (or `null`, for the nullable ones) is `none`.  Callbacks are
opaque and only their presence matters. -/
structure Params where
  id : Option String := none
  url : Option String := none
  method : Option String := none
  headers : Option Headers := none
  data : Option Payload := none
  onSuccess : Option String := none
  onError : Option String := none
  context : Option Ctx := none
  contextLock : Option Ctx := none
  contextStatus : Option Ctx := none

/-- The per-request notifier (class `ui`): correlation id plus the three
resolved context elements. -/
structure UiNotifier where
  id : String
  context : Ctx
  contextLock : Ctx
  contextStatus : Ctx

/-- The Query Descriptor (class `queryUi`) after construction, mutated in
place as the request progresses. -/
structure Query where
  id : Option String
  url : Option String
  method : String
  headers : Headers
  data : Option Payload
  onSuccess : Option String
  onError : Option String
  context : Ctx
  contextLock : Option Ctx
  contextStatus : Option Ctx
  ui : Option UiNotifier
  response : Option XHR
  requestData : Option Payload

/-- Default headers installed by the `queryUi` constructor, including the
best-effort CSRF token read from the page meta tag. -/
def defaultHeaders (env : Env) : Headers :=
  [("Accept", some "application/json, text/javascript"),
   ("X-Requested-With", some "XMLHttpRequest"),
   ("X-CSRF-TOKEN", env.csrf)]

/-- The `queryUi` constructor: defaults overridden by the spread of the
caller's params.  A caller-supplied `headers` object replaces the default
mapping wholesale, since the spread is shallow. -/
def mkQueryUi (env : Env) (p : Params) : Query where
  id := p.id
  url := p.url
  method := p.method.getD "GET"
  headers := p.headers.getD (defaultHeaders env)
  data := p.data
  onSuccess := p.onSuccess
  onError := p.onError
  context := p.context.getD (.elem env.body)
  contextLock := p.contextLock
  contextStatus := p.contextStatus
  ui := none
  response := none
  requestData := none

/-- Method `queryUi.addResponse`: saves the pre-overwrite `data` into
`requestData`, attaches the raw transport result as `response`, and
overwrites `data` with the response data. -/
def addResponse (q : Query) (r : XHR) (d : Option JVal) : Query :=
  { q with requestData := q.data, response := some r, data := d.map Payload.jval }

/-- Payload derivation of `prepareQuery`: for a non-GET request with no
explicit data whose context is a concrete element, serialize that element;
otherwise keep the data. -/
def serializeData (data : Option Payload) (method : String) (ctx : Ctx) : Option Payload :=
  match data, ctx with
  | none, .elem el => if method != "GET" then some (serializeForm el) else none
  | d, _ => d

/-- First step of `prepareQuery`, acting on the descriptor. -/
def serializeStep (q : Query) : Query :=
  { q with data := serializeData q.data q.method q.context }

/-- Condition of the payload-serialization branch of `prepareQuery`:
`query.data && typeof query.data === 'object' && !(query.data instanceof
FormData)`. -/
def isPlainObjectPayload : Option Payload → Bool
  | some (.jval v) => jsTruthy v && typeofObjectJ v
  | _ => false

/-- Payload after the JSON-serialization branch of `prepareQuery`. -/
def stringifyData : Option Payload → Option Payload
  | some (.jval v) =>
    if jsTruthy v && typeofObjectJ v then some (.jval (.str (jsonStringify v)))
    else some (.jval v)
  | d => d

/-- Headers after the JSON-serialization branch of `prepareQuery`. -/
def stringifyHeaders (data : Option Payload) (h : Headers) : Headers :=
  if isPlainObjectPayload data then hSet h "Content-Type" (some "application/json") else h

/-- Second step of `prepareQuery`: a truthy object payload that is not a
`FormData` is serialized to JSON text and a Content-Type header is set;
every other payload (including `FormData`) passes through untouched. -/
def stringifyStep (q : Query) : Query :=
  { q with data := stringifyData q.data, headers := stringifyHeaders q.data q.headers }

/-- The fallback `if (!query.contextLock) {query.contextLock = query.context}`
(context values are DOM elements, hence truthy when present). -/
def resolveCtx (c : Option Ctx) (fallback : Ctx) : Option Ctx :=
  match c with
  | none => some fallback
  | some x => some x

/-- Third step of `prepareQuery`: unspecified lock/status contexts fall back
to the request context. -/
def contextStep (q : Query) : Query :=
  { q with
    contextLock := resolveCtx q.contextLock q.context,
    contextStatus := resolveCtx q.contextStatus q.context }

/-- Private method `prepareQuery` of `HttpUi`: constructor defaults, payload
derivation, payload serialization, context resolution. -/
def prepareQuery (env : Env) (p : Params) : Query :=
  contextStep (stringifyStep (serializeStep (mkQueryUi env p)))

/-- The `ui` constructor applied to a prepared query: id and contexts with
their nullish-coalescing fallbacks. -/
def mkUi (q : Query) (fallbackId : String) : UiNotifier where
  id := q.id.getD fallbackId
  context := q.context
  contextLock := q.contextLock.getD q.context
  contextStatus := q.contextStatus.getD q.context

/-- The notifier attached to a query (total accessor; every query built by
`request` carries one). -/
def notifierOf (q : Query) : UiNotifier :=
  match q.ui with
  | some u => u
  | none => { id := "", context := q.context, contextLock := q.context, contextStatus := q.context }

/-- Element into which `displayLoader()` (called with no arguments by the
adapters) renders the loader: `context || this.contextLock`. -/
def loaderTarget (u : UiNotifier) : Ctx := u.contextLock

/-- Element into which `showAlert`/`remAlerts` render and clear alerts:
`this.contextStatus`. -/
def alertTarget (u : UiNotifier) : Ctx := u.contextStatus

/-- Correlation id of a request: `params.id || freshToken` (the caller's id
when truthy, else the fresh token). -/
def requestId (freshId : String) (p : Params) : String :=
  match p.id with
  | some s => if s == "" then freshId else s
  | none => freshId

/-- Method `request`: correlation id (caller id when truthy, else a fresh
token), query preparation, correlation-id header, notifier construction.
The fresh token generated from the clock and `Math.random` is supplied as
the parameter `freshId`. -/
def request (env : Env) (freshId : String) (p : Params) : Query :=
  let ajaxId := requestId freshId p
  let q := prepareQuery env p
  let q := { q with id := some ajaxId, headers := hSet q.headers "X-Requested-Id" (some ajaxId) }
  { q with ui := some (mkUi q freshId) }

/-- The spread `{method: M, url: url, ...params}` used by the shorthand
methods: the caller's params override both the fixed method and the url. -/
def withMethodUrl (m u : String) (p : Params) : Params :=
  { p with method := some (p.method.getD m), url := some (p.url.getD u) }

/-- Shorthand `post(url, data, params)`.  As in the source, the positional
`data` argument is accepted but not forwarded. -/
def post (env : Env) (freshId : String) (url : String) (_data : Option Payload)
    (p : Params) : Query :=
  request env freshId (withMethodUrl "POST" url p)

/-- Shorthand `put(url, data, params)`. -/
def put (env : Env) (freshId : String) (url : String) (_data : Option Payload)
    (p : Params) : Query :=
  request env freshId (withMethodUrl "PUT" url p)

/-- Shorthand `patch(url, data, params)`. -/
def patch (env : Env) (freshId : String) (url : String) (_data : Option Payload)
    (p : Params) : Query :=
  request env freshId (withMethodUrl "PATCH" url p)

/-- Which alert the default error display produces: the page-expired alert,
the extended alert carrying the structured body, the generic unexpected
alert carrying the response, or a thrown TypeError (reading
`responseText.indexOf` off an object without a `responseText`). -/
inductive AlertChoice where
  | pageExpired
  | extended (data : JVal)
  | unexpected (xhr : XHR)
  | crash

/-- Truthiness of `jqXHR.data?.message`. -/
def msgTruthyB (d : Option JVal) : Bool :=
  match d with
  | some v => (match msgOf v with | some m => jsTruthy m | none => false)
  | none => false

/-- Second and third branches of `displayAlert`: structured object data with
a truthy `message` yields the extended alert, anything else the generic
unexpected alert. -/
def displayAlertRest (xhr : XHR) : AlertChoice :=
  if typeofObjectOpt xhr.data && msgTruthyB xhr.data then
    .extended (xhr.data.getD .null)
  else
    .unexpected xhr

/-- Method `displayAlert` of `HttpUi`, on the attached response: the
page-expired branch requires non-object data, status 419, and the marker at
a strictly positive index of the raw body text. -/
def displayAlertX (xhr : XHR) : AlertChoice :=
  if !typeofObjectOpt xhr.data && (xhr.status == some 419) then
    match xhr.responseText with
    | none => .crash
    | some s =>
      if strIndexOf s "Page Expired" > 0 then .pageExpired else displayAlertRest xhr
  else
    displayAlertRest xhr

/-- Method `displayAlert` on a query descriptor (reads `query.response`). -/
def displayAlert (q : Query) : AlertChoice :=
  match q.response with
  | some xhr => displayAlertX xhr
  | none => .crash

/-- Condition of the page-expired branch of `displayAlert`: non-object data,
status 419, and the marker occurring at a strictly positive index of the raw
body text. -/
def condExpiredB (xhr : XHR) : Bool :=
  !typeofObjectOpt xhr.data && (xhr.status == some 419)
    && (match xhr.responseText with
        | some s => decide (strIndexOf s "Page Expired" > 0)
        | none => false)

/-- Condition under which `displayAlert` throws: the first two page-expired
conjuncts hold but the failure object has no `responseText` to index into. -/
def condCrashB (xhr : XHR) : Bool :=
  !typeofObjectOpt xhr.data && (xhr.status == some 419) && xhr.responseText.isNone

/-- Condition of the extended-alert branch of `displayAlert`: structured
object data with a truthy message. -/
def condExtendedB (xhr : XHR) : Bool :=
  typeofObjectOpt xhr.data && msgTruthyB xhr.data

/-- Whether the default alert rendering throws instead of completing.  The
page-expired and extended branches only build strings from values that are
present, but the unexpected branch's detailed report reads
`jqXHR.status.toString()`, `escapeHtml(jqXHR.statusText)` and
`escapeHtml(jqXHR.responseText)`, each a TypeError when the field is
`undefined` — which it is for every failure object of the fetch transport
(the generic banner itself is still prepended first).  `crash` is the
TypeError already thrown while testing the page-expired condition. -/
def alertRenderThrows : AlertChoice → Bool
  | .crash => true
  | .unexpected xhr => xhr.status.isNone || xhr.statusText.isNone || xhr.responseText.isNone
  | _ => false

/-- The try/catch around `jqXHR.data = JSON.parse(jqXHR.responseText)`:
on success the parse result is attached, a parse failure (including a
missing `responseText`) is swallowed and the previous `data` kept. -/
def bestEffortParse (parse : String → Option JVal) (xhr : XHR) : XHR :=
  { xhr with
    data :=
      match xhr.responseText.bind parse with
      | some v => some v
      | none => xhr.data }

/-- Observable UI/lifecycle events of a request, in the order they are
performed. -/
inductive Ev where
  | remAlerts (target : Ctx)
  | showLoader (target : Ctx)
  | netCall
  | hideLoader
  | callSuccess
  | callError
  | renderAlert (a : AlertChoice)
  | resolveW (q : Query)
  | rejectW (q : Query)

/-- Private method `requestFail`: hide the loader, best-effort parse of the
body, attach the failure object to the descriptor, invoke `onError` or fall
back to the default alert, reject with the descriptor.  Returns the mutated
descriptor together with the trace of events.  When no `onError` is
supplied and the default alert rendering throws (see `alertRenderThrows`),
the exception aborts the handler before `reject(query)` runs, so no
`rejectW` event is emitted and the promise never settles. -/
def requestFail (parse : String → Option JVal) (jqXHR : XHR) (q : Query) :
    Query × List Ev :=
  let jqXHR := bestEffortParse parse jqXHR
  let q := addResponse q jqXHR jqXHR.data
  let tailEvs :=
    match q.onError with
    | some _ => [Ev.callError, Ev.rejectW q]
    | none =>
      let a := displayAlert q
      if alertRenderThrows a then [Ev.renderAlert a]
      else [Ev.renderAlert a, Ev.rejectW q]
  (q, Ev.hideLoader :: tailEvs)

/-- Events both adapters perform before the network call fires: clear the
alerts in the status context, show the loader in the lock context. -/
def preTrace (q : Query) : List Ev :=
  [Ev.remAlerts (alertTarget (notifierOf q)),
   Ev.showLoader (loaderTarget (notifierOf q)),
   Ev.netCall]

/-- Outcome of the jQuery transport: the `.then` arguments on success, the
failing `jqXHR` on `.fail`. -/
inductive JqOutcome where
  | success (data : JVal) (jqXHR : XHR)
  | fail (jqXHR : XHR)

/-- Private method `sendRequestJQuery`, as the trace of events it performs
for a given transport outcome, together with the final descriptor. -/
def sendRequestJQuery (parse : String → Option JVal) (q : Query) (out : JqOutcome) :
    Query × List Ev :=
  match out with
  | .success data jqXHR =>
    let q' := addResponse q jqXHR (some data)
    (q', preTrace q ++ [Ev.hideLoader]
      ++ (match q.onSuccess with | some _ => [Ev.callSuccess] | none => [])
      ++ [Ev.resolveW q'])
  | .fail jqXHR =>
    let r := requestFail parse jqXHR q
    (r.1, preTrace q ++ r.2)

/-- A response delivered by `fetch`: status information and the result of
`response.json()` (`none` when the body is not parseable JSON). -/
structure FetchResponse where
  ok : Bool
  status : Int
  statusText : String
  json : Option JVal

/-- Outcome of the fetch transport: either the fetch promise rejects with an
error object, or a response arrives. -/
inductive FetchOutcome where
  | netError (err : XHR)
  | got (r : FetchResponse)

/-- The object `{ data, status, statusText }` thrown for a non-ok response
in `sendRequestFetch`; it has no `responseText` property. -/
def throwObj (r : FetchResponse) : XHR :=
  { status := some r.status, statusText := some r.statusText, responseText := none,
    data := r.json }

/-- The fetch `Response` object as stored into `query.response` on success;
it has no `responseText` or `data` properties. -/
def fetchRespXHR (r : FetchResponse) : XHR :=
  { status := some r.status, statusText := some r.statusText, responseText := none,
    data := none }

/-- The SyntaxError with which `response.json()` rejects; it has none of the
response-object properties. -/
def parseErrObj : XHR :=
  { status := none, statusText := none, responseText := none, data := none }

/-- Private method `sendRequestFetch`, as the trace of events it performs
for a given transport outcome.  The loader is hidden as soon as a response
arrives, before the body is parsed; every failure funnels into
`requestFail` via the final `.catch`. -/
def sendRequestFetch (parse : String → Option JVal) (q : Query) (out : FetchOutcome) :
    Query × List Ev :=
  match out with
  | .netError err =>
    let r := requestFail parse err q
    (r.1, preTrace q ++ r.2)
  | .got resp =>
    match resp.json with
    | some d =>
      if resp.ok then
        let q' := addResponse q (fetchRespXHR resp) (some d)
        (q', preTrace q ++ [Ev.hideLoader]
          ++ (match q.onSuccess with | some _ => [Ev.callSuccess] | none => [])
          ++ [Ev.resolveW q'])
      else
        let r := requestFail parse (throwObj resp) q
        (r.1, preTrace q ++ [Ev.hideLoader] ++ r.2)
    | none =>
      let r := requestFail parse parseErrObj q
      (r.1, preTrace q ++ [Ev.hideLoader] ++ r.2)

/-- Whether an event is a completion effect visible to the caller: a
callback invocation, the default alert render, or the promise settling. -/
def completionEv : Ev → Bool
  | .callSuccess => true
  | .callError => true
  | .renderAlert _ => true
  | .resolveW _ => true
  | .rejectW _ => true
  | _ => false

/-- Checks that no completion event occurs before the first `hideLoader` in
a trace. -/
def hideBeforeCompletion : List Ev → Bool
  | [] => true
  | Ev.hideLoader :: _ => true
  | e :: rest => if completionEv e then false else hideBeforeCompletion rest

/-! Model of `ui.escapeHtml`. -/

/-- One global single-character replacement, `s.replace(/c/g, rep)`, at the
character-list level. -/
def replCL (c : Char) (rep : List Char) : List Char → List Char
  | [] => []
  | ch :: rest => (if ch == c then rep else [ch]) ++ replCL c rep rest

/-- One global single-character replacement on strings. -/
def replaceChar (s : String) (c : Char) (rep : String) : String :=
  ⟨replCL c rep.data s.data⟩

/-- Method `ui.escapeHtml`: the five chained global replacements, in source
order. -/
def escapeHtml (s : String) : String :=
  replaceChar
    (replaceChar
      (replaceChar
        (replaceChar
          (replaceChar s '&' "&amp;")
          '<' "&lt;")
        '>' "&gt;")
      '"' "&quot;")
    '\'' "&#039;"

/-- The per-character escaping rule stated by the claim: each of the five
special characters becomes its entity, every other character is passed
through unchanged. -/
def escCharSpec (c : Char) : List Char :=
  if c == '&' then "&amp;".data
  else if c == '<' then "&lt;".data
  else if c == '>' then "&gt;".data
  else if c == '"' then "&quot;".data
  else if c == '\'' then "&#039;".data
  else [c]

/-- Single-pass escaping of a character list per `escCharSpec`. -/
def escListSpec : List Char → List Char
  | [] => []
  | c :: rest => escCharSpec c ++ escListSpec rest

/-- Single-pass escaping of a string, as the claim describes it. -/
def escapeHtmlSpec (s : String) : String := ⟨escListSpec s.data⟩

/-- Whether a character list is free of the raw markup-significant
characters `<`, `>`, `"` and the apostrophe. -/
def rawFree (l : List Char) : Bool :=
  l.all (fun c => !(c == '<' || c == '>' || c == '"' || c == '\''))

/-! Classification of form inputs, mirroring the if-chain of the
`serializeForm` forEach body, and ownership of keys of the serialized data
object — used to state which entries each input contributes. -/

/-- Whether the input takes the checkbox branch. -/
def isCheckboxB (i : Input) : Bool := i.type == "checkbox"

/-- Whether the input takes the radio branch. -/
def isRadioB (i : Input) : Bool := !(i.type == "checkbox") && (i.type == "radio")

/-- Whether the input takes the multi-select branch. -/
def isMultiB (i : Input) : Bool :=
  !(i.type == "checkbox") && !(i.type == "radio")
    && (i.tagName == "SELECT" && i.multiple && strEndsWith i.name "[]")

/-- Whether the input takes the default (plain value) branch. -/
def isPlainB (i : Input) : Bool :=
  !(i.type == "checkbox") && !(i.type == "radio")
    && !(i.tagName == "SELECT" && i.multiple && strEndsWith i.name "[]")

/-- Data-object keys an input writes: its name, except for a multi-select
which writes one indexed key per checked option. -/
def ownedKeys (i : Input) : List String :=
  if i.type == "checkbox" then [i.name]
  else if i.type == "radio" then [i.name]
  else if i.tagName == "SELECT" && i.multiple && strEndsWith i.name "[]" then
    (List.range (checkedValues i.options).length).map (selKey (i.name.dropRight 2))
  else [i.name]

/-- Whether the input writes the given key. -/
def ownsKeyB (i : Input) (k : String) : Bool := (ownedKeys i).any (fun x => x == k)

/-- Whether an input is a radio button of the group named `n`. -/
def radioNamedB (n : String) (x : Input) : Bool := isRadioB x && x.name == n

/-- Whether an input is a checked radio button of the group named `n`. -/
def checkedRadioB (n : String) (x : Input) : Bool := radioNamedB n x && x.checked

/-- Value the claim assigns to a radio group: the value of the checked
button, else the empty string. -/
def radioGroupValue (inputs : List Input) (n : String) : String :=
  match inputs.find? (checkedRadioB n) with
  | some r => r.value
  | none => ""

/-- Well-formedness relation between two distinct inputs of one element:
they write disjoint key sets, unless they are two radio buttons of the same
group of which at most one is checked. -/
def serDisjB (a b : Input) : Bool :=
  ((ownedKeys a).all (fun k => !ownsKeyB b k))
    || (isRadioB a && isRadioB b && a.name == b.name && !(a.checked && b.checked))

/-- Pairwise-holding of a boolean relation along a list. -/
def pairwiseB (r : Input → Input → Bool) : List Input → Bool
  | [] => true
  | x :: xs => xs.all (r x) && pairwiseB r xs

/-- Effect of one input on the data-object entry of the radio group `n`:
the two radio-branch statements, restricted to that key. -/
def radioEff (n : String) (cur : Option String) (x : Input) : Option String :=
  if radioNamedB n x then
    (if x.checked then some x.value else if falsyOpt cur then some "" else cur)
  else cur

/-- The five chained replacements of `escapeHtml`, at the character-list
level (`escapeHtml s = ⟨chainAll s.data⟩` definitionally). -/
def chainAll (l : List Char) : List Char :=
  replCL '\'' "&#039;".data
    (replCL '"' "&quot;".data
      (replCL '>' "&gt;".data
        (replCL '<' "&lt;".data
          (replCL '&' "&amp;".data l))))

/-! Concrete browser environment, parameter objects and failure objects used
by the witness and counterexample theorems. -/

/-- A concrete environment: a page with a CSRF meta tag and an empty body. -/
def envW : Env := ⟨some "tok", ⟨"BODY", []⟩⟩

/-- A parameter object supplying only a url. -/
def pPlainW : Params := { url := some "/x" }

/-- A parameter object supplying its own headers mapping. -/
def pHdrW : Params := { url := some "/x", headers := some [("Foo", some "bar")] }

/-- A concrete object payload for the C6 witness. -/
def objPayloadW : JVal := .obj [("a", .num 1)]

/-- A concrete parameter object carrying an explicit object payload. -/
def pObjW : Params := { url := some "/x", method := some "POST", data := some (.jval objPayloadW) }

/-- A concrete form element. -/
def formElW : Element := ⟨"FORM", [⟨"INPUT", "checkbox", "c", "v", false, false, []⟩]⟩

/-- A non-GET parameter object whose context is the form element, so the
derived payload is a `FormData`. -/
def pFormW : Params := { url := some "/x", method := some "POST", context := some (.elem formElW) }

/-- A failing response whose body carries the page-expired marker at a
strictly positive index. -/
def xhrExpiredW : XHR := ⟨some 419, some "unknown status", some "xx Page Expired yy", none⟩

/-- A failing response carrying a structured body with a message. -/
def xhrExtW : XHR :=
  ⟨some 422, some "Unprocessable", some "raw", some (.obj [("message", .str "Oops")])⟩

/-- A failing response matching no special branch. -/
def xhrPlainW : XHR := ⟨some 404, some "Not Found", some "nope", none⟩

/-- A failing response whose body text IS the page-expired marker, i.e. the
marker occurs at index 0. -/
def xhrCexW : XHR := ⟨some 419, some "unknown status", some "Page Expired", none⟩

/-- A checked checkbox. -/
def cb5W : Input := ⟨"INPUT", "checkbox", "agree", "yes", true, false, []⟩

/-- An unchecked radio button of the group `color`. -/
def r5aW : Input := ⟨"INPUT", "radio", "color", "red", false, false, []⟩

/-- The checked radio button of the group `color`. -/
def r5bW : Input := ⟨"INPUT", "radio", "color", "blue", true, false, []⟩

/-- A multi-select named with the list convention, with two checked
options. -/
def msel5W : Input :=
  ⟨"SELECT", "select-multiple", "tags[]", "", false, true, [⟨"a", true⟩, ⟨"b", false⟩, ⟨"c", true⟩]⟩

/-- A plain textarea. -/
def txt5W : Input := ⟨"TEXTAREA", "textarea", "note", "hi", false, false, []⟩

/-- A non-form element containing one input of each kind. -/
def div5W : Element := ⟨"DIV", [cb5W, r5aW, r5bW, msel5W, txt5W]⟩

/-- A non-GET parameter object without explicit data whose context is the
non-form element above. -/
def p5W : Params := { url := some "/w5", method := some "POST", context := some (.elem div5W) }

/-- A non-GET parameter object without explicit data whose context is a
form element. -/
def p5FormW : Params := { url := some "/y", method := some "PUT", context := some (.elem formElW) }

/-! Shared lemmas about the header and data assoc operations. -/

theorem hGet_hSet (k k' : String) (v : Option String) :
    ∀ h : Headers, hGet (hSet h k v) k' = if k' = k then some v else hGet h k' := by
  intro h
  induction h with
  | nil =>
    by_cases hk : k' = k
    · subst hk; simp [hSet, hGet]
    · have hk2 : ¬k = k' := fun he => hk he.symm
      simp [hSet, hGet, beq_iff_eq, hk, hk2]
  | cons kv rest ih =>
    obtain ⟨k0, w⟩ := kv
    by_cases h0 : k0 = k
    · subst h0
      by_cases hk : k' = k0
      · subst hk; simp [hSet, hGet]
      · have hk2 : ¬k0 = k' := fun he => hk he.symm
        simp [hSet, hGet, beq_iff_eq, hk, hk2]
    · by_cases hk : k0 = k'
      · have hk2 : ¬k' = k := fun he => h0 (hk.trans he)
        simp [hSet, hGet, beq_iff_eq, h0, hk, hk2]
      · simp [hSet, hGet, beq_iff_eq, h0, hk, ih]

theorem assocGetS_assocSetS (k k' v : String) :
    ∀ d : List (String × String),
      assocGetS (assocSetS d k v) k' = if k' = k then some v else assocGetS d k' := by
  intro d
  induction d with
  | nil =>
    by_cases hk : k' = k
    · subst hk; simp [assocSetS, assocGetS]
    · have hk2 : ¬k = k' := fun he => hk he.symm
      simp [assocSetS, assocGetS, beq_iff_eq, hk, hk2]
  | cons kv rest ih =>
    obtain ⟨k0, w⟩ := kv
    by_cases h0 : k0 = k
    · subst h0
      by_cases hk : k' = k0
      · subst hk; simp [assocSetS, assocGetS]
      · have hk2 : ¬k0 = k' := fun he => hk he.symm
        simp [assocSetS, assocGetS, beq_iff_eq, hk, hk2]
    · by_cases hk : k0 = k'
      · have hk2 : ¬k' = k := fun he => h0 (hk.trans he)
        simp [assocSetS, assocGetS, beq_iff_eq, h0, hk, hk2]
      · simp [assocSetS, assocGetS, beq_iff_eq, h0, hk, ih]

/-- Headers of a fully built request, unfolded down to the constructor
defaults. -/
theorem request_headers (env : Env) (freshId : String) (p : Params) :
    (request env freshId p).headers =
      hSet (stringifyHeaders
              (serializeData p.data (p.method.getD "GET") (p.context.getD (.elem env.body)))
              (p.headers.getD (defaultHeaders env)))
        "X-Requested-Id" (some (requestId freshId p)) := rfl

/-- C3: each of the shorthand methods `post`, `put` and `patch` returns
exactly `request({method: M, url: url, ...params})` for its fixed method M,
and the positional `data` argument is never merged into the forwarded
parameters, so the outcome is independent of `data`. -/
theorem claim3_shorthands_drop_data :
    ∀ (env : Env) (freshId url : String) (d : Option Payload) (p : Params),
      post env freshId url d p = request env freshId (withMethodUrl "POST" url p)
      ∧ put env freshId url d p = request env freshId (withMethodUrl "PUT" url p)
      ∧ patch env freshId url d p = request env freshId (withMethodUrl "PATCH" url p)
      ∧ (∀ d' : Option Payload,
          post env freshId url d p = post env freshId url d' p
          ∧ put env freshId url d p = put env freshId url d' p
          ∧ patch env freshId url d p = patch env freshId url d' p) :=
  fun _ _ _ _ _ => ⟨rfl, rfl, rfl, fun _ => ⟨rfl, rfl, rfl⟩⟩

/-- C9: `addResponse` sets exactly three fields — `requestData` becomes the
pre-overwrite `data`, `response` the raw transport result, `data` the parsed
body — and every other field of the descriptor is unchanged. -/
theorem claim9_addResponse_frame :
    ∀ (q : Query) (r : XHR) (d : Option JVal),
      (addResponse q r d).requestData = q.data
      ∧ (addResponse q r d).response = some r
      ∧ (addResponse q r d).data = d.map Payload.jval
      ∧ (addResponse q r d).id = q.id
      ∧ (addResponse q r d).url = q.url
      ∧ (addResponse q r d).method = q.method
      ∧ (addResponse q r d).headers = q.headers
      ∧ (addResponse q r d).onSuccess = q.onSuccess
      ∧ (addResponse q r d).onError = q.onError
      ∧ (addResponse q r d).context = q.context
      ∧ (addResponse q r d).contextLock = q.contextLock
      ∧ (addResponse q r d).contextStatus = q.contextStatus
      ∧ (addResponse q r d).ui = q.ui :=
  fun _ _ _ => ⟨rfl, rfl, rfl, rfl, rfl, rfl, rfl, rfl, rfl, rfl, rfl, rfl, rfl⟩

/-- C8: an unspecified `contextLock` (resp. `contextStatus`) resolves to the
descriptor's `context`, and the Notifier built for the request then places
the loader (resp. the alerts) in that same element. -/
theorem claim8_context_defaults :
    ∀ (env : Env) (freshId : String) (p : Params),
      (p.contextLock = none →
        (request env freshId p).contextLock = some ((request env freshId p).context)
        ∧ loaderTarget (notifierOf (request env freshId p)) = (request env freshId p).context)
      ∧ (p.contextStatus = none →
        (request env freshId p).contextStatus = some ((request env freshId p).context)
        ∧ alertTarget (notifierOf (request env freshId p)) = (request env freshId p).context) := by
  intro env freshId p
  constructor
  · intro h
    constructor
    · show resolveCtx p.contextLock (p.context.getD (.elem env.body)) = _
      rw [h]; rfl
    · show ((prepareQuery env p).contextLock.getD _) = _
      show ((resolveCtx p.contextLock (p.context.getD (.elem env.body))).getD _) = _
      rw [h]; rfl
  · intro h
    constructor
    · show resolveCtx p.contextStatus (p.context.getD (.elem env.body)) = _
      rw [h]; rfl
    · show ((prepareQuery env p).contextStatus.getD _) = _
      show ((resolveCtx p.contextStatus (p.context.getD (.elem env.body))).getD _) = _
      rw [h]; rfl

/-- C8 witness: a concrete request with neither `contextLock` nor
`contextStatus` supplied. -/
theorem claim8_witness :
    (request envW "w8" pPlainW).contextLock = some ((request envW "w8" pPlainW).context)
    ∧ loaderTarget (notifierOf (request envW "w8" pPlainW)) = (request envW "w8" pPlainW).context
    ∧ (request envW "w8" pPlainW).contextStatus = some ((request envW "w8" pPlainW).context)
    ∧ alertTarget (notifierOf (request envW "w8" pPlainW)) = (request envW "w8" pPlainW).context :=
  ⟨((claim8_context_defaults envW "w8" pPlainW).1 rfl).1,
   ((claim8_context_defaults envW "w8" pPlainW).1 rfl).2,
   ((claim8_context_defaults envW "w8" pPlainW).2 rfl).1,
   ((claim8_context_defaults envW "w8" pPlainW).2 rfl).2⟩

/-- C4, amended: the headers of every request include the per-request
`X-Requested-Id`; when the caller supplies no headers mapping of its own
they additionally include the Accept header, the XHR marker and the
best-effort CSRF token, while a caller-supplied headers mapping replaces
those defaults wholesale. -/
theorem claim4_headers_amended :
    ∀ (env : Env) (freshId : String) (p : Params),
      hGet (request env freshId p).headers "X-Requested-Id" = some (some (requestId freshId p))
      ∧ (p.headers = none →
          hGet (request env freshId p).headers "Accept" =
            some (some "application/json, text/javascript")
          ∧ hGet (request env freshId p).headers "X-Requested-With" =
            some (some "XMLHttpRequest")
          ∧ hGet (request env freshId p).headers "X-CSRF-TOKEN" = some env.csrf) := by
  intro env freshId p
  rw [request_headers]
  constructor
  · rw [hGet_hSet]; simp
  · intro h
    rw [h]
    have base :
        ∀ key : String, key ≠ "X-Requested-Id" → key ≠ "Content-Type" →
          hGet (hSet (stringifyHeaders
              (serializeData p.data (p.method.getD "GET") (p.context.getD (.elem env.body)))
              ((none : Option Headers).getD (defaultHeaders env)))
            "X-Requested-Id" (some (requestId freshId p))) key =
            hGet (defaultHeaders env) key := by
      intro key h1 h2
      rw [hGet_hSet, if_neg h1]
      unfold stringifyHeaders
      split
      · rw [hGet_hSet, if_neg h2]; rfl
      · rfl
    refine ⟨?_, ?_, ?_⟩
    · rw [base "Accept" (by decide) (by decide)]; rfl
    · rw [base "X-Requested-With" (by decide) (by decide)]; rfl
    · rw [base "X-CSRF-TOKEN" (by decide) (by decide)]; rfl

/-- C4 witness: a concrete request with no caller-supplied headers carries
all four headers. -/
theorem claim4_witness :
    hGet (request envW "w4" pPlainW).headers "X-Requested-Id" = some (some "w4")
    ∧ hGet (request envW "w4" pPlainW).headers "Accept" =
      some (some "application/json, text/javascript")
    ∧ hGet (request envW "w4" pPlainW).headers "X-Requested-With" = some (some "XMLHttpRequest")
    ∧ hGet (request envW "w4" pPlainW).headers "X-CSRF-TOKEN" = some (some "tok") :=
  ⟨(claim4_headers_amended envW "w4" pPlainW).1,
   ((claim4_headers_amended envW "w4" pPlainW).2 rfl).1,
   ((claim4_headers_amended envW "w4" pPlainW).2 rfl).2.1,
   ((claim4_headers_amended envW "w4" pPlainW).2 rfl).2.2⟩

/-- C4 counterexample: a caller-supplied headers mapping replaces the
default mapping wholesale, so the prepared request carries neither the
Accept header, nor the XHR marker, nor the CSRF token — refuting the claim
that they are present regardless of the caller's parameter object. -/
theorem claim4_counterexample :
    pHdrW.headers = some [("Foo", some "bar")]
    ∧ hGet (request envW "c4" pHdrW).headers "Accept" = none
    ∧ hGet (request envW "c4" pHdrW).headers "X-Requested-With" = none
    ∧ hGet (request envW "c4" pHdrW).headers "X-CSRF-TOKEN" = none :=
  ⟨rfl, rfl, rfl, rfl⟩

/-- C6: a payload that is (after the payload-derivation step) a truthy
non-`FormData` object is serialized to JSON text and a Content-Type header
is set before the transport is invoked; a `FormData` payload passes through
untouched and the headers are left exactly as the constructor built them. -/
theorem claim6_stringify_object_payloads :
    ∀ (env : Env) (p : Params),
      (∀ v : JVal,
        serializeData p.data (p.method.getD "GET") (p.context.getD (.elem env.body)) =
          some (.jval v) →
        jsTruthy v = true → typeofObjectJ v = true →
        (prepareQuery env p).data = some (.jval (.str (jsonStringify v)))
        ∧ hGet (prepareQuery env p).headers "Content-Type" = some (some "application/json"))
      ∧ (∀ el : Element,
        serializeData p.data (p.method.getD "GET") (p.context.getD (.elem env.body)) =
          some (.formData el) →
        (prepareQuery env p).data = some (.formData el)
        ∧ (prepareQuery env p).headers = (mkQueryUi env p).headers) := by
  intro env p
  constructor
  · intro v hser htru hobj
    have hser2 :
        serializeData p.data (mkQueryUi env p).method (mkQueryUi env p).context =
          some (.jval v) := hser
    constructor
    · show stringifyData (serializeData p.data _ _) = _
      rw [hser2]
      simp [stringifyData, htru, hobj]
    · show hGet (stringifyHeaders (serializeData p.data _ _) (mkQueryUi env p).headers) _ = _
      rw [hser2]
      simp [stringifyHeaders, isPlainObjectPayload, htru, hobj, hGet_hSet]
  · intro el hser
    have hser2 :
        serializeData p.data (mkQueryUi env p).method (mkQueryUi env p).context =
          some (.formData el) := hser
    constructor
    · show stringifyData (serializeData p.data _ _) = _
      rw [hser2]
      rfl
    · show stringifyHeaders (serializeData p.data _ _) (mkQueryUi env p).headers = _
      rw [hser2]
      rfl

/-- C6 witness: a concrete object payload is stringified with the
Content-Type header set, and a concrete `FormData` payload passes through
with untouched headers. -/
theorem claim6_witness :
    (prepareQuery envW pObjW).data = some (.jval (.str (jsonStringify objPayloadW)))
    ∧ hGet (prepareQuery envW pObjW).headers "Content-Type" = some (some "application/json")
    ∧ (prepareQuery envW pFormW).data = some (.formData formElW)
    ∧ (prepareQuery envW pFormW).headers = (mkQueryUi envW pFormW).headers :=
  ⟨((claim6_stringify_object_payloads envW pObjW).1 objPayloadW rfl rfl rfl).1,
   ((claim6_stringify_object_payloads envW pObjW).1 objPayloadW rfl rfl rfl).2,
   ((claim6_stringify_object_payloads envW pFormW).2 formElW rfl).1,
   ((claim6_stringify_object_payloads envW pFormW).2 formElW rfl).2⟩

/-- C2, amended: `displayAlert` shows the page-expired alert exactly when
the attached response has no structured (object) data, its status is 419,
and the raw body text contains the marker at a strictly positive index; it
shows the extended alert when the data is a structured object with a truthy
(non-empty) message; in all remaining cases (excluding the crashing one
where the marker test cannot run for lack of a `responseText`) it shows the
generic unexpected-error alert. -/
theorem claim2_displayAlert_amended :
    ∀ xhr : XHR,
      (condExpiredB xhr = true → displayAlertX xhr = .pageExpired)
      ∧ (condExtendedB xhr = true → displayAlertX xhr = .extended (xhr.data.getD .null))
      ∧ (condExpiredB xhr = false → condCrashB xhr = false → condExtendedB xhr = false →
          displayAlertX xhr = .unexpected xhr) := by
  intro xhr
  refine ⟨?_, ?_, ?_⟩
  · intro h
    unfold condExpiredB at h
    rcases hrt : xhr.responseText with _ | s
    · rw [hrt] at h; simp at h
    · rw [hrt] at h
      rw [Bool.and_eq_true, Bool.and_eq_true] at h
      obtain ⟨⟨hto, hst⟩, hidx⟩ := h
      unfold displayAlertX
      rw [hto, hst, hrt]
      simp only [Bool.and_self, if_true]
      rw [if_pos (of_decide_eq_true hidx)]
  · intro h
    unfold condExtendedB at h
    rw [Bool.and_eq_true] at h
    obtain ⟨hto, hmsg⟩ := h
    unfold displayAlertX displayAlertRest
    rw [hto, hmsg]
    simp
  · intro he hc hx
    unfold displayAlertX
    rcases hb : (!typeofObjectOpt xhr.data && (xhr.status == some 419)) with _ | _
    · simp only [Bool.false_eq_true, if_false]
      unfold displayAlertRest condExtendedB at *
      rw [hx]
      simp
    · simp only [if_true]
      rcases hrt : xhr.responseText with _ | s
      · exfalso
        unfold condCrashB at hc
        rw [hb, hrt] at hc
        simp at hc
      · have hidx : ¬(strIndexOf s "Page Expired" > 0) := by
          intro hgt
          unfold condExpiredB at he
          rw [hb, hrt] at he
          simp [hgt] at he
        show (if strIndexOf s "Page Expired" > 0 then AlertChoice.pageExpired
              else displayAlertRest xhr) = _
        rw [if_neg hidx]
        unfold displayAlertRest condExtendedB at *
        rw [hx]
        simp

/-- C2 witness: concrete responses exercising all three branches of the
amended claim. -/
theorem claim2_witness :
    (condExpiredB xhrExpiredW = true ∧ displayAlertX xhrExpiredW = .pageExpired)
    ∧ (condExtendedB xhrExtW = true
        ∧ displayAlertX xhrExtW = .extended (xhrExtW.data.getD .null))
    ∧ (condExpiredB xhrPlainW = false ∧ condCrashB xhrPlainW = false
        ∧ condExtendedB xhrPlainW = false ∧ displayAlertX xhrPlainW = .unexpected xhrPlainW) :=
  ⟨⟨by decide, (claim2_displayAlert_amended xhrExpiredW).1 (by decide)⟩,
   ⟨by decide, (claim2_displayAlert_amended xhrExtW).2.1 (by decide)⟩,
   ⟨by decide, by decide, by decide,
    (claim2_displayAlert_amended xhrPlainW).2.2 (by decide) (by decide) (by decide)⟩⟩

/-- C2 counterexample: a failing response with status 419, no structured
data, and a body text that contains the marker "Page Expired" — at index 0.
The claim requires the page-expired alert, but the code tests
`indexOf('Page Expired') > 0` and therefore falls through to the generic
unexpected alert. -/
theorem claim2_counterexample :
    strIndexOf xhrCexW.responseText.iget "Page Expired" = 0
    ∧ typeofObjectOpt xhrCexW.data = false
    ∧ xhrCexW.status = some 419
    ∧ displayAlertX xhrCexW = .unexpected xhrCexW
    ∧ displayAlertX xhrCexW ≠ .pageExpired :=
  ⟨rfl, rfl, rfl, rfl, fun h => by
    rw [show displayAlertX xhrCexW = .unexpected xhrCexW from rfl] at h
    exact AlertChoice.noConfusion h⟩

/-- C7: both transport adapters first clear the alerts scoped to the status
context, then show the loader scoped to the lock context, and only then fire
the network call; and on every outcome the loader is hidden before any
completion effect (a success or error callback, the default alert render,
or the promise settling) occurs. -/
theorem claim7_loader_ordering :
    ∀ (parse : String → Option JVal) (q : Query) (outJ : JqOutcome) (outF : FetchOutcome),
      preTrace q =
        [Ev.remAlerts (alertTarget (notifierOf q)),
         Ev.showLoader (loaderTarget (notifierOf q)), Ev.netCall]
      ∧ ((sendRequestJQuery parse q outJ).2.take 3 = preTrace q
          ∧ hideBeforeCompletion ((sendRequestJQuery parse q outJ).2.drop 3) = true)
      ∧ ((sendRequestFetch parse q outF).2.take 3 = preTrace q
          ∧ hideBeforeCompletion ((sendRequestFetch parse q outF).2.drop 3) = true) := by
  intro parse q outJ outF
  refine ⟨rfl, ⟨?_, ?_⟩, ⟨?_, ?_⟩⟩
  · rcases outJ with ⟨d, x⟩ | x <;>
      rcases hs : q.onSuccess with _ | cb <;>
      simp [sendRequestJQuery, preTrace, requestFail, hs]
  · rcases outJ with ⟨d, x⟩ | x <;>
      rcases hs : q.onSuccess with _ | cb <;>
      rcases he : q.onError with _ | cb' <;>
      simp [sendRequestJQuery, preTrace, requestFail, hideBeforeCompletion, completionEv, hs, he]
  · rcases outF with x | r
    · simp [sendRequestFetch, preTrace, requestFail]
    · rcases hj : r.json with _ | d <;>
        rcases hk : r.ok with _ | _ <;>
        rcases hs : q.onSuccess with _ | cb <;>
        simp [sendRequestFetch, preTrace, requestFail, hj, hk, hs]
  · rcases outF with x | r
    · rcases he : q.onError with _ | cb' <;>
        simp [sendRequestFetch, preTrace, requestFail, hideBeforeCompletion, completionEv, he]
    · rcases hj : r.json with _ | d <;>
        rcases hk : r.ok with _ | _ <;>
        rcases hs : q.onSuccess with _ | cb <;>
        rcases he : q.onError with _ | cb' <;>
        simp [sendRequestFetch, preTrace, requestFail, hideBeforeCompletion, completionEv,
          hj, hk, hs, he]

/-! Lemmas for the escapeHtml claim. -/

theorem replCL_append (c : Char) (rep : List Char) :
    ∀ l1 l2 : List Char, replCL c rep (l1 ++ l2) = replCL c rep l1 ++ replCL c rep l2 := by
  intro l1 l2
  induction l1 with
  | nil => rfl
  | cons ch rest ih => simp [replCL, ih]

theorem chainAll_append (l1 l2 : List Char) :
    chainAll (l1 ++ l2) = chainAll l1 ++ chainAll l2 := by
  simp [chainAll, replCL_append]

theorem chainAll_single (c : Char) : chainAll [c] = escCharSpec c := by
  by_cases h1 : c = '&'
  · subst h1; decide
  by_cases h2 : c = '<'
  · subst h2; decide
  by_cases h3 : c = '>'
  · subst h3; decide
  by_cases h4 : c = '"'
  · subst h4; decide
  by_cases h5 : c = '\''
  · subst h5; decide
  simp [chainAll, replCL, escCharSpec, beq_iff_eq, h1, h2, h3, h4, h5]

theorem chainAll_eq_spec : ∀ l : List Char, chainAll l = escListSpec l := by
  intro l
  induction l with
  | nil => rfl
  | cons c rest ih =>
    have hsplit : chainAll (c :: rest) = chainAll [c] ++ chainAll rest := by
      simpa using chainAll_append [c] rest
    rw [hsplit, chainAll_single, ih]
    rfl

theorem rawFree_escCharSpec (c : Char) : rawFree (escCharSpec c) = true := by
  by_cases h1 : c = '&'
  · subst h1; decide
  by_cases h2 : c = '<'
  · subst h2; decide
  by_cases h3 : c = '>'
  · subst h3; decide
  by_cases h4 : c = '"'
  · subst h4; decide
  by_cases h5 : c = '\''
  · subst h5; decide
  simp [escCharSpec, rawFree, beq_iff_eq, h1, h2, h3, h4, h5]

theorem rawFree_escListSpec : ∀ l : List Char, rawFree (escListSpec l) = true := by
  intro l
  induction l with
  | nil => rfl
  | cons c rest ih =>
    show rawFree (escCharSpec c ++ escListSpec rest) = true
    have := rawFree_escCharSpec c
    simp only [rawFree, List.all_append] at *
    rw [this, ih]
    rfl

/-- C10: the chained replacements of `escapeHtml` agree with the single-pass
per-character rule — every occurrence of the five special characters becomes
its HTML entity and all other characters pass through unchanged — and
consequently the output contains no raw `<`, `>`, `"` or `'` character. -/
theorem claim10_escapeHtml :
    ∀ s : String,
      escapeHtml s = escapeHtmlSpec s
      ∧ rawFree (escapeHtml s).data = true := by
  intro s
  have h1 : escapeHtml s = ⟨chainAll s.data⟩ := rfl
  refine ⟨?_, ?_⟩
  · rw [h1, chainAll_eq_spec]
    rfl
  · rw [h1]
    show rawFree (chainAll s.data) = true
    rw [chainAll_eq_spec]
    exact rawFree_escListSpec s.data

/-! Lemmas for the serializeForm claim: injectivity of the generated
multi-select keys, and the effect of `setIndexed` on lookups. -/

theorem digitsFuel_foldl : ∀ fuel n : Nat, n < fuel →
    (digitsFuel fuel n).foldl (fun acc d => acc * 10 + d) 0 = n := by
  intro fuel
  induction fuel with
  | zero => intro n h; omega
  | succ f ih =>
    intro n h
    unfold digitsFuel
    by_cases hn : n < 10
    · simp [hn]
    · simp only [hn, if_false]
      rw [List.foldl_append]
      have hdiv : n / 10 < n := Nat.div_lt_self (by omega) (by omega)
      rw [ih (n / 10) (by omega)]
      show n / 10 * 10 + n % 10 = n
      omega

theorem natDecimal_foldl (n : Nat) :
    (natDecimal n).foldl (fun acc d => acc * 10 + d) 0 = n :=
  digitsFuel_foldl (n + 1) n (Nat.lt_succ_self n)

theorem natDecimal_inj {a b : Nat} (h : natDecimal a = natDecimal b) : a = b := by
  have ha := natDecimal_foldl a
  have hb := natDecimal_foldl b
  rw [h, hb] at ha
  exact ha.symm

theorem digitsFuel_lt10 : ∀ fuel n : Nat, n < fuel → ∀ d ∈ digitsFuel fuel n, d < 10 := by
  intro fuel
  induction fuel with
  | zero => intro n h; omega
  | succ f ih =>
    intro n h d hd
    unfold digitsFuel at hd
    by_cases hn : n < 10
    · simp [hn] at hd; omega
    · simp only [hn, if_false, List.mem_append, List.mem_singleton] at hd
      rcases hd with hd | hd
      · have hdiv : n / 10 < n := Nat.div_lt_self (by omega) (by omega)
        exact ih (n / 10) (by omega) d hd
      · have : n % 10 < 10 := Nat.mod_lt _ (by omega)
        omega

theorem digitChar10_toNat {d : Nat} (h : d < 10) : (digitChar10 d).toNat = 48 + d := by
  interval_cases d <;> rfl

theorem map_digitChar10_inj : ∀ l1 l2 : List Nat, (∀ d ∈ l1, d < 10) → (∀ d ∈ l2, d < 10) →
    l1.map digitChar10 = l2.map digitChar10 → l1 = l2 := by
  intro l1
  induction l1 with
  | nil =>
    intro l2 _ _ h
    cases l2 with
    | nil => rfl
    | cons e rest2 => simp at h
  | cons d rest ih =>
    intro l2 h1 h2 h
    cases l2 with
    | nil => simp at h
    | cons e rest2 =>
      simp only [List.map_cons, List.cons.injEq] at h
      obtain ⟨hde, htl⟩ := h
      have hd : d < 10 := h1 d (by simp)
      have he : e < 10 := h2 e (by simp)
      have hn : (digitChar10 d).toNat = (digitChar10 e).toNat := congrArg Char.toNat hde
      rw [digitChar10_toNat hd, digitChar10_toNat he] at hn
      have hde2 : d = e := by omega
      subst hde2
      rw [ih rest2 (fun x hx => h1 x (by simp [hx])) (fun x hx => h2 x (by simp [hx])) htl]

theorem strData_inj {s t : String} (h : s.data = t.data) : s = t := by
  cases s; cases t; exact congrArg String.mk h

theorem strData_append (s t : String) : (s ++ t).data = s.data ++ t.data := by
  cases s; cases t; rfl

theorem natToString_inj {a b : Nat} (h : natToString a = natToString b) : a = b := by
  have hd := congrArg String.data h
  exact natDecimal_inj
    (map_digitChar10_inj _ _ (digitsFuel_lt10 (a + 1) a (Nat.lt_succ_self a))
      (digitsFuel_lt10 (b + 1) b (Nat.lt_succ_self b)) hd)

theorem selKey_inj {sname : String} {a b : Nat} (h : selKey sname a = selKey sname b) :
    a = b := by
  apply natToString_inj
  apply strData_inj
  have hd := congrArg String.data h
  simp only [selKey, strData_append, List.append_assoc] at hd
  have h1 := (List.append_right_inj _).mp hd
  have h2 := (List.append_right_inj _).mp h1
  exact (List.append_left_inj _).mp h2

theorem setIndexed_get_notin (sname k : String) :
    ∀ (vals : List String) (d : List (String × String)) (start : Nat),
      (∀ j, j < vals.length → selKey sname (start + j) ≠ k) →
      assocGetS (setIndexed d sname vals start) k = assocGetS d k := by
  intro vals
  induction vals with
  | nil => intro d start _; rfl
  | cons v rest ih =>
    intro d start h
    show assocGetS (setIndexed (assocSetS d (selKey sname start) v) sname rest (start + 1)) k = _
    rw [ih _ (start + 1) (fun j hj => by
      have hh := h (j + 1) (by simp [List.length_cons]; omega)
      have heq : start + 1 + j = start + (j + 1) := by omega
      rw [heq]
      exact hh)]
    rw [assocGetS_assocSetS]
    rw [if_neg]
    intro hk
    exact h 0 (by simp) (by rw [Nat.add_zero]; exact hk.symm)

theorem setIndexed_get_at (sname : String) :
    ∀ (vals : List String) (d : List (String × String)) (start j : Nat)
      (hj : j < vals.length),
      assocGetS (setIndexed d sname vals start) (selKey sname (start + j)) =
        some (vals.get ⟨j, hj⟩) := by
  intro vals
  induction vals with
  | nil => intro d start j hj; exact absurd hj (by simp)
  | cons v rest ih =>
    intro d start j hj
    cases j with
    | zero =>
      rw [Nat.add_zero]
      show assocGetS
          (setIndexed (assocSetS d (selKey sname start) v) sname rest (start + 1))
          (selKey sname start) = some v
      have hne : ∀ j', j' < rest.length → selKey sname (start + 1 + j') ≠ selKey sname start := by
        intro j' _ heq
        have := selKey_inj heq
        omega
      rw [setIndexed_get_notin sname (selKey sname start) rest _ (start + 1) hne]
      rw [assocGetS_assocSetS, if_pos rfl]
    | succ j' =>
      have hj2 : j' < rest.length := by simp [List.length_cons] at hj; omega
      rw [show start + (j' + 1) = start + 1 + j' from by omega]
      show assocGetS
          (setIndexed (assocSetS d (selKey sname start) v) sname rest (start + 1))
          (selKey sname (start + 1 + j')) = _
      rw [ih _ (start + 1) j' hj2]
      rfl

/-! Lemmas about input kinds and key ownership. -/

theorem isRadioB_conds {i : Input} (h : isRadioB i = true) :
    (i.type == "checkbox") = false ∧ (i.type == "radio") = true := by
  unfold isRadioB at h
  rw [Bool.and_eq_true, Bool.not_eq_true'] at h
  exact h

theorem isMultiB_conds {i : Input} (h : isMultiB i = true) :
    (i.type == "checkbox") = false ∧ (i.type == "radio") = false
    ∧ (i.tagName == "SELECT" && i.multiple && strEndsWith i.name "[]") = true := by
  unfold isMultiB at h
  rw [Bool.and_eq_true, Bool.and_eq_true, Bool.not_eq_true', Bool.not_eq_true'] at h
  exact ⟨h.1.1, h.1.2, h.2⟩

theorem isPlainB_conds {i : Input} (h : isPlainB i = true) :
    (i.type == "checkbox") = false ∧ (i.type == "radio") = false
    ∧ (i.tagName == "SELECT" && i.multiple && strEndsWith i.name "[]") = false := by
  unfold isPlainB at h
  rw [Bool.and_eq_true, Bool.and_eq_true, Bool.not_eq_true', Bool.not_eq_true',
    Bool.not_eq_true'] at h
  exact ⟨h.1.1, h.1.2, h.2⟩

theorem kinds_exhaustive (i : Input) :
    isCheckboxB i = true ∨ isRadioB i = true ∨ isMultiB i = true ∨ isPlainB i = true := by
  unfold isCheckboxB isRadioB isMultiB isPlainB
  cases i.type == "checkbox" <;> cases i.type == "radio" <;>
    cases i.tagName == "SELECT" && i.multiple && strEndsWith i.name "[]" <;> simp

theorem serInput_checkbox {i : Input} (h : isCheckboxB i = true)
    (d : List (String × String)) :
    serInput d i = assocSetS d i.name (if i.checked then i.value else "") := by
  unfold isCheckboxB at h
  simp [serInput, h]

theorem serInput_multi {i : Input} (h : isMultiB i = true) (d : List (String × String)) :
    serInput d i = setIndexed d (i.name.dropRight 2) (checkedValues i.options) 0 := by
  obtain ⟨h1, h2, h3⟩ := isMultiB_conds h
  simp [serInput, h1, h2, h3]

theorem serInput_plain {i : Input} (h : isPlainB i = true) (d : List (String × String)) :
    serInput d i = assocSetS d i.name i.value := by
  obtain ⟨h1, h2, h3⟩ := isPlainB_conds h
  simp [serInput, h1, h2, h3]

theorem serInput_radio_get {i : Input} (h : isRadioB i = true) (d : List (String × String)) :
    assocGetS (serInput d i) i.name =
      if i.checked then some i.value
      else if falsyOpt (assocGetS d i.name) then some "" else assocGetS d i.name := by
  obtain ⟨h1, h2⟩ := isRadioB_conds h
  simp only [serInput, h1, h2, Bool.false_eq_true, if_false, if_true]
  cases hc : i.checked <;> cases hf : falsyOpt (assocGetS d i.name) <;>
    simp [hc, hf, assocGetS_assocSetS]

theorem ownedKeys_checkbox {i : Input} (h : isCheckboxB i = true) :
    ownedKeys i = [i.name] := by
  unfold isCheckboxB at h
  simp [ownedKeys, h]

theorem ownedKeys_radio {i : Input} (h : isRadioB i = true) : ownedKeys i = [i.name] := by
  obtain ⟨h1, h2⟩ := isRadioB_conds h
  simp [ownedKeys, h1, h2]

theorem ownedKeys_multi {i : Input} (h : isMultiB i = true) :
    ownedKeys i =
      (List.range (checkedValues i.options).length).map (selKey (i.name.dropRight 2)) := by
  obtain ⟨h1, h2, h3⟩ := isMultiB_conds h
  simp [ownedKeys, h1, h2, h3]

theorem ownedKeys_plain {i : Input} (h : isPlainB i = true) : ownedKeys i = [i.name] := by
  obtain ⟨h1, h2, h3⟩ := isPlainB_conds h
  simp [ownedKeys, h1, h2, h3]

theorem ownsKeyB_iff {i : Input} {k : String} : ownsKeyB i k = true ↔ k ∈ ownedKeys i := by
  unfold ownsKeyB
  rw [List.any_eq_true]
  constructor
  · rintro ⟨x, hx, he⟩
    rw [beq_iff_eq] at he
    exact he ▸ hx
  · intro hm
    exact ⟨k, hm, by simp⟩

theorem serInput_notowned {i : Input} {k : String} (h : ownsKeyB i k = false)
    (d : List (String × String)) :
    assocGetS (serInput d i) k = assocGetS d k := by
  have hknot : k ∉ ownedKeys i := by
    intro hm
    rw [ownsKeyB_iff.mpr hm] at h
    exact Bool.noConfusion h
  rcases kinds_exhaustive i with hk | hk | hk | hk
  · rw [serInput_checkbox hk]
    rw [ownedKeys_checkbox hk] at hknot
    simp only [List.mem_singleton] at hknot
    rw [assocGetS_assocSetS, if_neg hknot]
  · obtain ⟨h1, h2⟩ := isRadioB_conds hk
    rw [ownedKeys_radio hk] at hknot
    simp only [List.mem_singleton] at hknot
    simp only [serInput, h1, h2, Bool.false_eq_true, if_false, if_true]
    cases hc : i.checked <;> cases hf : falsyOpt (assocGetS d i.name) <;>
      simp [hc, hf, assocGetS_assocSetS, hknot]
  · rw [serInput_multi hk]
    rw [ownedKeys_multi hk] at hknot
    apply setIndexed_get_notin
    intro j hj heq
    apply hknot
    rw [Nat.zero_add] at heq
    exact List.mem_map.mpr ⟨j, List.mem_range.mpr hj, heq⟩
  · rw [serInput_plain hk]
    rw [ownedKeys_plain hk] at hknot
    simp only [List.mem_singleton] at hknot
    rw [assocGetS_assocSetS, if_neg hknot]

theorem foldl_notowned {k : String} :
    ∀ (xs : List Input) (d : List (String × String)),
      (∀ x ∈ xs, ownsKeyB x k = false) →
      assocGetS (xs.foldl serInput d) k = assocGetS d k := by
  intro xs
  induction xs with
  | nil => intro d _; rfl
  | cons x rest ih =>
    intro d h
    show assocGetS (rest.foldl serInput (serInput d x)) k = _
    rw [ih _ (fun y hy => h y (by simp [hy]))]
    exact serInput_notowned (h x (by simp)) d

/-! Lemmas about the pairwise disjointness relation. -/

theorem pairwiseB_append {r : Input → Input → Bool} :
    ∀ l1 l2 : List Input, pairwiseB r (l1 ++ l2) = true →
      pairwiseB r l2 = true ∧ ∀ a ∈ l1, ∀ b ∈ l2, r a b = true := by
  intro l1
  induction l1 with
  | nil => intro l2 h; exact ⟨h, by simp⟩
  | cons x rest ih =>
    intro l2 h
    have h2 : ((rest ++ l2).all (r x) && pairwiseB r (rest ++ l2)) = true := h
    rw [Bool.and_eq_true, List.all_append, Bool.and_eq_true] at h2
    obtain ⟨⟨ha1, ha2⟩, hrest⟩ := h2
    obtain ⟨hl2, hcross⟩ := ih l2 hrest
    refine ⟨hl2, ?_⟩
    intro a ha b hb
    rcases List.mem_cons.mp ha with rfl | ha'
    · exact List.all_eq_true.mp ha2 b hb
    · exact hcross a ha' b hb

theorem pairwiseB_imp {r r' : Input → Input → Bool}
    (him : ∀ a b, r a b = true → r' a b = true) :
    ∀ l, pairwiseB r l = true → pairwiseB r' l = true := by
  intro l
  induction l with
  | nil => intro _; rfl
  | cons x rest ih =>
    intro h
    have h2 : (rest.all (r x) && pairwiseB r rest) = true := h
    rw [Bool.and_eq_true] at h2
    obtain ⟨hall, hrest⟩ := h2
    show (rest.all (r' x) && pairwiseB r' rest) = true
    rw [Bool.and_eq_true]
    exact ⟨List.all_eq_true.mpr (fun b hb => him x b (List.all_eq_true.mp hall b hb)),
      ih hrest⟩

theorem disj_overlap {a b : Input} {k : String} (h : serDisjB a b = true)
    (ha : ownsKeyB a k = true) (hb : ownsKeyB b k = true) :
    isRadioB a = true ∧ isRadioB b = true ∧ a.name = b.name
    ∧ (a.checked && b.checked) = false := by
  unfold serDisjB at h
  rw [Bool.or_eq_true] at h
  rcases h with h | h
  · exfalso
    have hx := List.all_eq_true.mp h k (ownsKeyB_iff.mp ha)
    rw [hb] at hx
    exact Bool.noConfusion hx
  · rw [Bool.and_eq_true, Bool.and_eq_true, Bool.and_eq_true, Bool.not_eq_true'] at h
    obtain ⟨⟨⟨hra, hrb⟩, hnm⟩, hch⟩ := h
    exact ⟨hra, hrb, beq_iff_eq.mp hnm, hch⟩

theorem disj_solo {a b : Input} {k : String} (h : serDisjB a b = true)
    (hra : isRadioB a = false) (ha : ownsKeyB a k = true) : ownsKeyB b k = false := by
  cases hb : ownsKeyB b k
  · rfl
  · have hx := (disj_overlap h ha hb).1
    rw [hra] at hx
    exact Bool.noConfusion hx

theorem disj_solo' {a b : Input} {k : String} (h : serDisjB a b = true)
    (hrb : isRadioB b = false) (hb : ownsKeyB b k = true) : ownsKeyB a k = false := by
  cases ha : ownsKeyB a k
  · rfl
  · have hx := (disj_overlap h ha hb).2.1
    rw [hrb] at hx
    exact Bool.noConfusion hx

theorem radioNamedB_decomp {n : String} {x : Input} (h : radioNamedB n x = true) :
    isRadioB x = true ∧ x.name = n := by
  unfold radioNamedB at h
  rw [Bool.and_eq_true] at h
  exact ⟨h.1, beq_iff_eq.mp h.2⟩

theorem radioNamed_owns {n : String} {x : Input} (h : radioNamedB n x = true) :
    ownsKeyB x n = true := by
  obtain ⟨hr, hn⟩ := radioNamedB_decomp h
  rw [ownsKeyB_iff, ownedKeys_radio hr, List.mem_singleton]
  exact hn.symm

theorem owns_self_radio {x : Input} (h : isRadioB x = true) :
    ownsKeyB x x.name = true := by
  rw [ownsKeyB_iff, ownedKeys_radio h]
  simp

/-! The radio-group fold view of serialization. -/

theorem foldl_radioEff {n : String} :
    ∀ (xs : List Input) (d : List (String × String)),
      (∀ x ∈ xs, ownsKeyB x n = true → radioNamedB n x = true) →
      assocGetS (xs.foldl serInput d) n = xs.foldl (radioEff n) (assocGetS d n) := by
  intro xs
  induction xs with
  | nil => intro d _; rfl
  | cons x rest ih =>
    intro d h
    show assocGetS (rest.foldl serInput (serInput d x)) n =
      rest.foldl (radioEff n) (radioEff n (assocGetS d n) x)
    rw [ih (serInput d x) (fun y hy => h y (by simp [hy]))]
    congr 1
    cases how : ownsKeyB x n
    · rw [serInput_notowned how]
      cases hrn : radioNamedB n x
      · simp [radioEff, hrn]
      · have hx := radioNamed_owns hrn
        rw [how] at hx
        exact Bool.noConfusion hx
    · have hrn : radioNamedB n x = true := h x (by simp) how
      obtain ⟨hr, hnm⟩ := radioNamedB_decomp hrn
      unfold radioEff
      simp only [hrn, if_true]
      rw [← hnm]
      exact serInput_radio_get hr d

theorem foldl_radioEff_char {n : String} :
    ∀ (xs : List Input) (cur : Option String),
      pairwiseB (fun a b => !(checkedRadioB n a && checkedRadioB n b)) xs = true →
      xs.foldl (radioEff n) cur =
        (match xs.find? (checkedRadioB n) with
         | some r => some r.value
         | none =>
            if xs.any (radioNamedB n) then (if falsyOpt cur then some "" else cur)
            else cur) := by
  intro xs
  induction xs with
  | nil => intro cur _; rfl
  | cons x rest ih =>
    intro cur hp
    have hp2 : (rest.all (fun b => !(checkedRadioB n x && checkedRadioB n b))
        && pairwiseB (fun a b => !(checkedRadioB n a && checkedRadioB n b)) rest) = true := hp
    rw [Bool.and_eq_true] at hp2
    obtain ⟨hall, hrest⟩ := hp2
    by_cases hx : checkedRadioB n x = true
    · have hx2 : radioNamedB n x = true ∧ x.checked = true := by
        have hy := hx
        unfold checkedRadioB at hy
        rw [Bool.and_eq_true] at hy
        exact hy
      obtain ⟨hrn, hchk⟩ := hx2
      rw [List.find?_cons_of_pos _ hx]
      show rest.foldl (radioEff n) (radioEff n cur x) = some x.value
      have hre : radioEff n cur x = some x.value := by simp [radioEff, hrn, hchk]
      rw [hre, ih (some x.value) hrest]
      have hnone : rest.find? (checkedRadioB n) = none := by
        apply List.find?_eq_none.mpr
        intro y hy hcy
        have hb := List.all_eq_true.mp hall y hy
        rw [hx, hcy] at hb
        exact Bool.noConfusion hb
      rw [hnone]
      by_cases hany : rest.any (radioNamedB n) = true
      · rw [if_pos hany]
        by_cases hv : x.value = ""
        · rw [hv]; simp [falsyOpt]
        · simp [falsyOpt, hv]
      · simp [hany]
    · have hx' : checkedRadioB n x = false := by
        cases hcc : checkedRadioB n x
        · rfl
        · exact absurd hcc hx
      rw [List.find?_cons_of_neg _ hx]
      show rest.foldl (radioEff n) (radioEff n cur x) = _
      rw [ih (radioEff n cur x) hrest]
      by_cases hrn : radioNamedB n x = true
      · have hchk : x.checked = false := by
          cases hc : x.checked
          · rfl
          · unfold checkedRadioB at hx'
            rw [hrn, hc] at hx'
            exact Bool.noConfusion hx'
        have hre : radioEff n cur x = if falsyOpt cur then some "" else cur := by
          simp [radioEff, hrn, hchk]
        rw [hre]
        have hanyx : (x :: rest).any (radioNamedB n) = true := by
          rw [List.any_cons, hrn]
          rfl
        rw [hanyx]
        cases hf : rest.find? (checkedRadioB n) with
        | some r => rfl
        | none =>
          simp only [if_true]
          by_cases hany : rest.any (radioNamedB n) = true
          · rw [if_pos hany]
            by_cases hfc : falsyOpt cur = true
            · rw [if_pos hfc]
              simp [falsyOpt]
            · simp [hfc]
          · simp [hany]
      · have hrn' : radioNamedB n x = false := by
          cases hh : radioNamedB n x
          · rfl
          · exact absurd hh hrn
        have hre : radioEff n cur x = cur := by simp [radioEff, hrn']
        rw [hre]
        rw [List.any_cons, hrn']
        rfl

/-! Final value of each kind of input's entries in the serialized data. -/

theorem serFields_checkbox {inputs : List Input} {i : Input}
    (hp : pairwiseB serDisjB inputs = true) (hmem : i ∈ inputs)
    (hk : isCheckboxB i = true) :
    assocGetS (serializeFields inputs) i.name = some (if i.checked then i.value else "") := by
  obtain ⟨pre, post, rfl⟩ := List.append_of_mem hmem
  have hra : isRadioB i = false := by
    unfold isCheckboxB at hk
    unfold isRadioB
    rw [hk]
    rfl
  have hown : ownsKeyB i i.name = true := by
    rw [ownsKeyB_iff, ownedKeys_checkbox hk]
    simp
  obtain ⟨hpost, _⟩ := pairwiseB_append pre (i :: post) hp
  have hpost2 : (post.all (serDisjB i) && pairwiseB serDisjB post) = true := hpost
  rw [Bool.and_eq_true] at hpost2
  have hnotown : ∀ y ∈ post, ownsKeyB y i.name = false := fun y hy =>
    disj_solo (List.all_eq_true.mp hpost2.1 y hy) hra hown
  unfold serializeFields
  rw [List.foldl_append]
  show assocGetS (post.foldl serInput (serInput (pre.foldl serInput []) i)) i.name = _
  rw [foldl_notowned post _ hnotown]
  rw [serInput_checkbox hk, assocGetS_assocSetS, if_pos rfl]

theorem serFields_plain {inputs : List Input} {i : Input}
    (hp : pairwiseB serDisjB inputs = true) (hmem : i ∈ inputs)
    (hk : isPlainB i = true) :
    assocGetS (serializeFields inputs) i.name = some i.value := by
  obtain ⟨pre, post, rfl⟩ := List.append_of_mem hmem
  have hra : isRadioB i = false := by
    obtain ⟨h1, h2, _⟩ := isPlainB_conds hk
    unfold isRadioB
    rw [h1, h2]
    rfl
  have hown : ownsKeyB i i.name = true := by
    rw [ownsKeyB_iff, ownedKeys_plain hk]
    simp
  obtain ⟨hpost, _⟩ := pairwiseB_append pre (i :: post) hp
  have hpost2 : (post.all (serDisjB i) && pairwiseB serDisjB post) = true := hpost
  rw [Bool.and_eq_true] at hpost2
  have hnotown : ∀ y ∈ post, ownsKeyB y i.name = false := fun y hy =>
    disj_solo (List.all_eq_true.mp hpost2.1 y hy) hra hown
  unfold serializeFields
  rw [List.foldl_append]
  show assocGetS (post.foldl serInput (serInput (pre.foldl serInput []) i)) i.name = _
  rw [foldl_notowned post _ hnotown]
  rw [serInput_plain hk, assocGetS_assocSetS, if_pos rfl]

theorem serFields_multi {inputs : List Input} {i : Input}
    (hp : pairwiseB serDisjB inputs = true) (hmem : i ∈ inputs)
    (hk : isMultiB i = true) :
    ∀ j (hj : j < (checkedValues i.options).length),
      assocGetS (serializeFields inputs) (selKey (i.name.dropRight 2) j) =
        some ((checkedValues i.options).get ⟨j, hj⟩) := by
  intro j hj
  obtain ⟨pre, post, rfl⟩ := List.append_of_mem hmem
  have hra : isRadioB i = false := by
    obtain ⟨h1, h2, _⟩ := isMultiB_conds hk
    unfold isRadioB
    rw [h1, h2]
    rfl
  have hown : ownsKeyB i (selKey (i.name.dropRight 2) j) = true := by
    rw [ownsKeyB_iff, ownedKeys_multi hk]
    exact List.mem_map.mpr ⟨j, List.mem_range.mpr hj, rfl⟩
  obtain ⟨hpost, _⟩ := pairwiseB_append pre (i :: post) hp
  have hpost2 : (post.all (serDisjB i) && pairwiseB serDisjB post) = true := hpost
  rw [Bool.and_eq_true] at hpost2
  have hnotown : ∀ y ∈ post, ownsKeyB y (selKey (i.name.dropRight 2) j) = false := fun y hy =>
    disj_solo (List.all_eq_true.mp hpost2.1 y hy) hra hown
  unfold serializeFields
  rw [List.foldl_append]
  show assocGetS
      (post.foldl serInput (serInput (pre.foldl serInput []) i))
      (selKey (i.name.dropRight 2) j) = _
  rw [foldl_notowned post _ hnotown]
  rw [serInput_multi hk]
  have hx := setIndexed_get_at (i.name.dropRight 2) (checkedValues i.options)
    (pre.foldl serInput []) 0 j hj
  rw [Nat.zero_add] at hx
  exact hx

theorem serFields_radio {inputs : List Input} {i : Input}
    (hp : pairwiseB serDisjB inputs = true) (hmem : i ∈ inputs)
    (hk : isRadioB i = true) :
    assocGetS (serializeFields inputs) i.name = some (radioGroupValue inputs i.name) := by
  have hhyp : ∀ x ∈ inputs, ownsKeyB x i.name = true → radioNamedB i.name x = true := by
    intro x hx how
    obtain ⟨pre, post, heq⟩ := List.append_of_mem hmem
    rw [heq] at hp hx
    obtain ⟨hpost, hcross⟩ := pairwiseB_append pre (i :: post) hp
    have howni : ownsKeyB i i.name = true := owns_self_radio hk
    rcases List.mem_append.mp hx with hxp | hxip
    · have hd := hcross x hxp i (by simp)
      obtain ⟨hrx, _, hnm, _⟩ := disj_overlap hd how howni
      unfold radioNamedB
      rw [hrx, hnm]
      simp
    · rcases List.mem_cons.mp hxip with rfl | hxpost
      · unfold radioNamedB
        rw [hk]
        simp
      · have hpost2 : (post.all (serDisjB i) && pairwiseB serDisjB post) = true := hpost
        rw [Bool.and_eq_true] at hpost2
        have hd := List.all_eq_true.mp hpost2.1 x hxpost
        obtain ⟨_, hrx, hnm, _⟩ := disj_overlap hd howni how
        unfold radioNamedB
        rw [hrx, ← hnm]
        simp
  have hpnt :
      pairwiseB (fun a b => !(checkedRadioB i.name a && checkedRadioB i.name b)) inputs
        = true := by
    refine pairwiseB_imp ?_ inputs hp
    intro a b hd
    cases hca : checkedRadioB i.name a
    · simp
    · cases hcb : checkedRadioB i.name b
      · simp
      · exfalso
        have hA : radioNamedB i.name a = true ∧ a.checked = true := by
          unfold checkedRadioB at hca
          rw [Bool.and_eq_true] at hca
          exact hca
        have hB : radioNamedB i.name b = true ∧ b.checked = true := by
          unfold checkedRadioB at hcb
          rw [Bool.and_eq_true] at hcb
          exact hcb
        have hoa : ownsKeyB a i.name = true := radioNamed_owns hA.1
        have hob : ownsKeyB b i.name = true := radioNamed_owns hB.1
        have hch := (disj_overlap hd hoa hob).2.2.2
        rw [hA.2, hB.2] at hch
        exact Bool.noConfusion hch
  unfold serializeFields
  rw [foldl_radioEff inputs [] hhyp]
  show inputs.foldl (radioEff i.name) none = _
  rw [foldl_radioEff_char inputs none hpnt]
  unfold radioGroupValue
  cases hf : inputs.find? (checkedRadioB i.name) with
  | some r => rfl
  | none =>
    have hany : inputs.any (radioNamedB i.name) = true := by
      rw [List.any_eq_true]
      refine ⟨i, hmem, ?_⟩
      unfold radioNamedB
      rw [hk]
      simp
    rw [hany]
    simp [falsyOpt]

/-- C5, amended: for every request whose method is not GET, whose parameters
carry no explicit data, and whose context is a concrete UI element that is
not itself a form element, the payload is the object obtained by serializing
that element's form-like descendants, and — for inputs whose key sets do not
collide except within a radio group with at most one checked button — a
checkbox contributes its value if checked and else the empty string, a radio
group contributes the value of its checked button and else the empty string,
a multi-select whose name ends in `[]` contributes indexed entries
`name[0]`, `name[1]`, …, and every other input contributes its value.  When
the context element IS a form, the payload is instead a binary `FormData`
built from it. -/
theorem claim5_serializeForm_amended :
    ∀ (env : Env) (p : Params) (el : Element),
      p.data = none → (p.method.getD "GET") ≠ "GET" → p.context = some (Ctx.elem el) →
      (el.nodeName = "FORM" →
        (serializeStep (mkQueryUi env p)).data = some (Payload.formData el))
      ∧ (el.nodeName ≠ "FORM" →
        (serializeStep (mkQueryUi env p)).data =
          some (.jval (.obj
            ((serializeFields el.inputs).map (fun kv => (kv.1, JVal.str kv.2)))))
        ∧ (pairwiseB serDisjB el.inputs = true →
            ∀ i ∈ el.inputs,
              (isCheckboxB i = true →
                assocGetS (serializeFields el.inputs) i.name =
                  some (if i.checked then i.value else ""))
              ∧ (isRadioB i = true →
                assocGetS (serializeFields el.inputs) i.name =
                  some (radioGroupValue el.inputs i.name))
              ∧ (isMultiB i = true →
                ∀ j (hj : j < (checkedValues i.options).length),
                  assocGetS (serializeFields el.inputs) (selKey (i.name.dropRight 2) j) =
                    some ((checkedValues i.options).get ⟨j, hj⟩))
              ∧ (isPlainB i = true →
                assocGetS (serializeFields el.inputs) i.name = some i.value))) := by
  intro env p el hdata hmet hctx
  have hser : (serializeStep (mkQueryUi env p)).data = some (serializeForm el) := by
    show serializeData p.data (p.method.getD "GET") (p.context.getD (.elem env.body)) = _
    rw [hdata, hctx]
    show serializeData none (p.method.getD "GET") (Ctx.elem el) = _
    unfold serializeData
    rw [show ((p.method.getD "GET") != "GET") = true from by
      rw [bne_iff_ne]; exact hmet]
    rfl
  constructor
  · intro hform
    rw [hser]
    unfold serializeForm
    rw [show (el.nodeName == "FORM") = true from beq_iff_eq.mpr hform]
    rfl
  · intro hnform
    constructor
    · rw [hser]
      unfold serializeForm
      rw [show (el.nodeName == "FORM") = false from by
        cases hb : el.nodeName == "FORM"
        · rfl
        · exact absurd (beq_iff_eq.mp hb) hnform]
      rfl
    · intro hpw i hmem
      exact ⟨fun hk => serFields_checkbox hpw hmem hk,
             fun hk => serFields_radio hpw hmem hk,
             fun hk j hj => serFields_multi hpw hmem hk j hj,
             fun hk => serFields_plain hpw hmem hk⟩

/-- C5 witness: a non-form element carrying a checked checkbox, a two-button
radio group, a multi-select with two checked options, and a textarea. -/
theorem claim5_witness :
    assocGetS (serializeFields div5W.inputs) "agree" = some "yes"
    ∧ assocGetS (serializeFields div5W.inputs) "color" = some "blue"
    ∧ assocGetS (serializeFields div5W.inputs) "tags[0]" = some "a"
    ∧ assocGetS (serializeFields div5W.inputs) "tags[1]" = some "c"
    ∧ assocGetS (serializeFields div5W.inputs) "note" = some "hi"
    ∧ (serializeStep (mkQueryUi envW p5W)).data =
        some (.jval (.obj
          ((serializeFields div5W.inputs).map (fun kv => (kv.1, JVal.str kv.2))))) := by
  have H := claim5_serializeForm_amended envW p5W div5W rfl (by decide) rfl
  have H2 := H.2 (by decide)
  have HR := H2.2 (by decide)
  refine ⟨?_, ?_, ?_, ?_, ?_, H2.1⟩
  · exact (HR cb5W (by decide)).1 (by decide)
  · exact (HR r5bW (by decide)).2.1 (by decide)
  · exact (HR msel5W (by decide)).2.2.1 (by decide) 0 (by decide)
  · exact (HR msel5W (by decide)).2.2.1 (by decide) 1 (by decide)
  · exact (HR txt5W (by decide)).2.2.2 (by decide)

/-- C5 counterexample: the claim as stated also covers a context element
that is itself a form; there the code derives the payload with
`new FormData(form)` rather than the per-field rules (in particular an
unchecked checkbox contributes no entry at all instead of the empty
string), so the payload is not the rules-built object. -/
theorem claim5_counterexample :
    p5FormW.data = none
    ∧ (p5FormW.method.getD "GET") ≠ "GET"
    ∧ p5FormW.context = some (Ctx.elem formElW)
    ∧ (serializeStep (mkQueryUi envW p5FormW)).data = some (Payload.formData formElW)
    ∧ (serializeStep (mkQueryUi envW p5FormW)).data ≠
        some (.jval (.obj
          ((serializeFields formElW.inputs).map (fun kv => (kv.1, JVal.str kv.2))))) := by
  refine ⟨rfl, by decide, rfl, rfl, ?_⟩
  intro h
  rw [show (serializeStep (mkQueryUi envW p5FormW)).data = some (Payload.formData formElW)
    from rfl] at h
  injection h with h2
  exact Payload.noConfusion h2

end HttpUi
